import Mathlib

/-!
Verification of the progress-tracker bookmark API.

The embedding follows the source files: the SQLite migration (tables
`bookmark`, `tag`, `bookmark_tag`), the Elysia route handlers of the
non-cached variant (POST /bookmarks, PUT /bookmarks upsert-by-name,
PUT /bookmarks/:id, PUT /bookmarks/:id/check/:finished,
DELETE /bookmarks/:id, the bearer-token guard) and of the cached variant
(the in-memory bookmark cache, `getBookmarks`, `updateBookmarks`, and the
GET /bookmarks handler that serves the cache for an empty query and a live
LIKE search otherwise).
-/

namespace ProgressTracker

/-- A row of the `bookmark` table: id INTEGER PRIMARY KEY AUTOINCREMENT,
name TEXT NOT NULL, href TEXT NOT NULL, finished INTEGER DEFAULT false
NOT NULL, created_at INTEGER NOT NULL, updated_at INTEGER NOT NULL. -/
structure Bookmark where
  id : Nat
  name : String
  href : String
  finished : Bool
  createdAt : Nat
  updatedAt : Nat
  deriving DecidableEq

/-- A row of the `tag` table: id, name, variant (DEFAULT default),
created_at, updated_at. -/
structure Tag where
  id : Nat
  name : String
  variant : String
  createdAt : Nat
  updatedAt : Nat
  deriving DecidableEq

/-- A row of the association table `bookmark_tag`:
PRIMARY KEY (bookmark_id, tag_id), created_at. -/
structure BookmarkTagRow where
  bookmarkId : Nat
  tagId : Nat
  createdAt : Nat
  deriving DecidableEq

/-- The persistent store: the three tables of the migration. -/
structure Store where
  bookmarks : List Bookmark
  tags : List Tag
  bookmarkTags : List BookmarkTagRow
  deriving DecidableEq

/-- Substring containment over character lists: the needle occurs as a
contiguous run somewhere in the haystack. -/
def strContainsAux (needle : List Char) : List Char → Bool
  | [] => needle.isEmpty
  | c :: rest => needle.isPrefixOf (c :: rest) || strContainsAux needle rest

/-- Semantics of the SQL pattern `LIKE %sub%` used by the search handlers
(`like(bookmark.name, ...)` with the query string spliced between two
percent signs): the name contains `sub` as a substring. -/
def likeContains (hay sub : String) : Bool :=
  strContainsAux sub.data hay.data

/-- Semantics of the JavaScript `String.prototype.trim` used by the
variant-B GET handler: strip leading and trailing whitespace. -/
def jsTrim (s : String) : String :=
  ⟨((s.data.dropWhile Char.isWhitespace).reverse.dropWhile Char.isWhitespace).reverse⟩

/-- The next AUTOINCREMENT id: one more than the largest id in the table. -/
def nextId (db : List Bookmark) : Nat :=
  (db.foldr (fun r m => max r.id m) 0) + 1

/-- Modelled from the spec: the drizzle schema file (`./db/schema`) is not
part of the sources, so the column defaults it attaches to `created_at`
and `updated_at` are taken from the spec, which states that insert
"creates a row with finished=false, createdAt=updatedAt=now".
`drizzleDB.insert(bookmark).values({name, href})` then appends one row
with a fresh AUTOINCREMENT id, `finished` defaulted to false by the
migration, and both timestamps set to the current time. -/
def insertBookmark (db : List Bookmark) (n h : String) (now : Nat) : List Bookmark :=
  db ++ [⟨nextId db, n, h, false, now, now⟩]

/-- Modelled from the spec: the drizzle schema file is not in the sources;
the spec states updatedAt is "set at creation and on every update", so
every UPDATE bumps `updated_at` to the current time.
`update(bookmark).set({finished}).where(eq(bookmark.id, id))` from the
PUT /bookmarks/:id/check/:finished handler. -/
def toggleFinished (db : List Bookmark) (idv : Nat) (b : Bool) (now : Nat) : List Bookmark :=
  db.map (fun r => if r.id == idv then { r with finished := b, updatedAt := now } else r)

/-- The DELETE /bookmarks/:id handler:
`delete(bookmark).where(eq(bookmark.id, id))`. -/
def deleteBookmark (db : List Bookmark) (idv : Nat) : List Bookmark :=
  db.filter (fun r => !(r.id == idv))

/-- Modelled from the spec: updatedAt bump as for `toggleFinished`.
`update(bookmark).set(body).where(eq(bookmark.id, id))` with
body = {name, href}, from the PUT /bookmarks/:id handler. -/
def updateById (db : List Bookmark) (idv : Nat) (n h : String) (now : Nat) : List Bookmark :=
  db.map (fun r => if r.id == idv then { r with name := n, href := h, updatedAt := now } else r)

/-- The PUT /bookmarks upsert-by-name handler, run as one transaction:
select the first row whose name equals the body name; if none, insert the
body and report created=true; otherwise update {name, href} on every row
with that name and report created=false (`{ created: await tx }`). -/
def upsertByName (db : List Bookmark) (n h : String) (now : Nat) : List Bookmark × Bool :=
  match db.find? (fun r => r.name == n) with
  | none => (insertBookmark db n h now, true)
  | some _ =>
    (db.map (fun r => if r.name == n then { r with name := n, href := h, updatedAt := now } else r),
     false)

/-- A request to one of the routes under the /bookmarks prefix. -/
inductive Req where
  | list
  | create (n h : String)
  | upsert (n h : String)
  | updateReq (idv : Nat) (n h : String)
  | toggle (idv : Nat) (fin : Bool)
  | remove (idv : Nat)
  deriving DecidableEq

/-- The body of an HTTP response. -/
inductive RespBody where
  | text (s : String)
  | rows (l : List Bookmark)
  | created (b : Bool)
  | empty
  deriving DecidableEq

/-- An HTTP response: status, optional WWW-Authenticate header, body. -/
structure Response where
  status : Nat
  wwwAuthenticate : Option String
  body : RespBody
  deriving DecidableEq

/-- The challenge header value set by the guard. -/
def wwwAuthChallenge : String := "Bearer realm=\x27sign\x27, error=\"invalid_request\""

/-- The guard failure response: status 400, WWW-Authenticate header,
body "Unauthorized"; the store is untouched. -/
def unauthorized (st : Store) : Store × Response :=
  (st, ⟨400, some wwwAuthChallenge, RespBody.text "Unauthorized"⟩)

/-- Dispatch of an authenticated request to its route handler. The list
route runs SELECT * FROM bookmark ORDER BY id DESC; the mutating routes
run the corresponding statement and respond 200. -/
def handleRoute (req : Req) (st : Store) (now : Nat) : Store × Response :=
  match req with
  | .list =>
    (st, ⟨200, none, RespBody.rows (st.bookmarks.insertionSort (fun a b => b.id ≤ a.id))⟩)
  | .create n h =>
    ({ st with bookmarks := insertBookmark st.bookmarks n h now }, ⟨200, none, RespBody.empty⟩)
  | .upsert n h =>
    let res := upsertByName st.bookmarks n h now
    ({ st with bookmarks := res.1 }, ⟨200, none, RespBody.created res.2⟩)
  | .updateReq idv n h =>
    ({ st with bookmarks := updateById st.bookmarks idv n h now }, ⟨200, none, RespBody.empty⟩)
  | .toggle idv b =>
    ({ st with bookmarks := toggleFinished st.bookmarks idv b now }, ⟨200, none, RespBody.empty⟩)
  | .remove idv =>
    ({ st with bookmarks := deleteBookmark st.bookmarks idv }, ⟨200, none, RespBody.empty⟩)

/-- The guarded /bookmarks application: the beforeHandle guard checks
`bearer === undefined || bearer !== env.BEARER_TOKEN` and short-circuits
to the 400 Unauthorized response; otherwise the route handler runs. -/
def serve (token : String) (auth : Option String) (req : Req) (st : Store) (now : Nat) :
    Store × Response :=
  match auth with
  | none => unauthorized st
  | some b => if b ≠ token then unauthorized st else handleRoute req st now

/-- An element of a GET /bookmarks response in the cached variant: a
bookmark row, with the `tags` key present (`some`) only when the entry
went through the tag-enrichment of `getBookmarks`. -/
structure BookmarkResp where
  row : Bookmark
  tags : Option (List Tag)
  deriving DecidableEq

/-- The prepared `getBookmarkTags` query: tag INNER JOIN bookmark_tag ON
tag.id = bookmark_tag.tag_id WHERE bookmark_tag.bookmark_id = id. -/
def tagsFor (st : Store) (bid : Nat) : List Tag :=
  st.tags.filter (fun t => st.bookmarkTags.any (fun bt => bt.tagId == t.id && bt.bookmarkId == bid))

/-- The body of the cached variant's `getBookmarks`: select all bookmark
rows and attach `bookmark.tags = getBookmarkTags.all({$id: bookmark.id})`
to each. -/
def getBookmarksQuery (st : Store) : List BookmarkResp :=
  st.bookmarks.map (fun b => ⟨b, some (tagsFor st b.id)⟩)

/-- The cached variant's `getBookmarks(stateBookmarks)` with the outcome
of the fallible storage queries passed as an `Except`: on success the
shared `stateBookmarks.items` is replaced by the fresh list, which is
also returned; on failure the catch block records the error on the
console log, the shared items are left untouched, and `[]` is returned.
Result: (new cache items, return value, console error log). -/
def getBookmarksRefresh (queryResult : Except String (List BookmarkResp))
    (items : List BookmarkResp) : List BookmarkResp × List BookmarkResp × List String :=
  match queryResult with
  | .ok bs => (bs, bs, [])
  | .error e => (items, [], [e])

/-- The cached variant's GET /bookmarks handler: an absent or empty `q`
returns the shared cached items; otherwise a live
SELECT * FROM bookmark WHERE name LIKE the query between percent signs,
whose rows carry no tags key. -/
def handlerCached (cache : List BookmarkResp) (st : Store) (q : Option String) :
    List BookmarkResp :=
  match q with
  | none => cache
  | some s =>
    if s = "" then cache
    else (st.bookmarks.filter (fun b => likeContains b.name s)).map (fun b => ⟨b, none⟩)

/-- The variant-B GET /bookmarks handler: an absent or empty `q` returns
the full table; otherwise `q` is trimmed, a whitespace-only `q` returns
the empty list, and a non-blank `q` runs the LIKE search on the trimmed
string. -/
def handlerB (db : List Bookmark) (q : Option String) : List Bookmark :=
  match q with
  | none => db
  | some s =>
    if s = "" then db
    else
      let search := jsTrim s
      if search.length = 0 then []
      else db.filter (fun b => likeContains b.name search)

/-- The mutable state touched by `updateBookmarks`: the module-level
`isUpdatingBookmarks` flag and the number of `setImmediate(getBookmarks,
stateBookmarks)` callbacks that have been scheduled but have not yet run
on the event loop. -/
structure UpdState where
  isUpdatingBookmarks : Bool
  pendingRefreshes : Nat
  deriving DecidableEq

/-- The cached variant's `updateBookmarks` with a defined
`stateBookmarks`, run to completion as one synchronous step: return early
when the flag is set; otherwise set the flag, schedule `getBookmarks`
with `setImmediate` (the refresh itself runs on a later event-loop turn),
and clear the flag in the `finally` block before returning. -/
def updateBookmarks (s : UpdState) : UpdState :=
  if s.isUpdatingBookmarks then s
  else
    let s1 := { s with isUpdatingBookmarks := true }
    let s2 := { s1 with pendingRefreshes := s1.pendingRefreshes + 1 }
    { s2 with isUpdatingBookmarks := false }

/-! ## Theorems -/

/-- C2: every request to a /bookmarks route whose bearer credential is
absent or different from the configured token gets status 400, the
WWW-Authenticate challenge header and body "Unauthorized", and the store
is returned unchanged — the route handler never runs. -/
theorem guard_unauthorized (token : String) (auth : Option String) (req : Req)
    (st : Store) (now : Nat) (h : auth = none ∨ auth ≠ some token) :
    serve token auth req st now =
      (st, ⟨400, some wwwAuthChallenge, RespBody.text "Unauthorized"⟩) := by
  match auth with
  | none => rfl
  | some b =>
    have hb : b ≠ token := by
      rcases h with h | h
      · exact absurd h (by simp)
      · intro he; exact h (by rw [he])
    simp [serve, hb, unauthorized]

/-- Witness for C2 at a concrete wrong token. -/
theorem guard_unauthorized_witness :
    serve "secret" (some "wrong") Req.list ⟨[], [], []⟩ 0 =
      (⟨[], [], []⟩, ⟨400, some wwwAuthChallenge, RespBody.text "Unauthorized"⟩) :=
  guard_unauthorized "secret" (some "wrong") Req.list ⟨[], [], []⟩ 0 (Or.inr (by decide))

/-- C5 is false of the code: `updateBookmarks` clears
`isUpdatingBookmarks` in its finally block immediately after the
`setImmediate` call, before the scheduled refresh has run. Starting from
the initial state, one trigger leaves a refresh in flight (scheduled,
pending) with the flag already false again, and a second trigger is not
dropped: it schedules a second refresh. -/
theorem refresh_flag_not_single_flight :
    (updateBookmarks ⟨false, 0⟩).pendingRefreshes = 1 ∧
    (updateBookmarks ⟨false, 0⟩).isUpdatingBookmarks = false ∧
    (updateBookmarks (updateBookmarks ⟨false, 0⟩)).pendingRefreshes = 2 := by
  decide

/-- C6: when the storage query of a cache refresh fails, the error is
logged, the shared cache items are left exactly as they were, and the
function returns normally with []; a later successful refresh replaces
the items. -/
theorem refresh_failure_preserves_cache (e : String) (items : List BookmarkResp)
    (res : Except String (List BookmarkResp)) (h : res = Except.error e) :
    (getBookmarksRefresh res items).1 = items ∧
    (getBookmarksRefresh res items).2.1 = [] ∧
    (getBookmarksRefresh res items).2.2 = [e] ∧
    (∀ bs : List BookmarkResp, (getBookmarksRefresh (Except.ok bs) items).1 = bs) := by
  subst h
  exact ⟨rfl, rfl, rfl, fun bs => rfl⟩

/-- Witness for C6 at a concrete failing query over a non-empty cache. -/
theorem refresh_failure_preserves_cache_witness :
    (getBookmarksRefresh (Except.error "boom")
        [⟨⟨1, "a", "h", false, 0, 0⟩, none⟩]).1 = [⟨⟨1, "a", "h", false, 0, 0⟩, none⟩] ∧
    (getBookmarksRefresh (Except.error "boom")
        [⟨⟨1, "a", "h", false, 0, 0⟩, none⟩]).2.2 = ["boom"] := by
  have h := refresh_failure_preserves_cache "boom"
    [⟨⟨1, "a", "h", false, 0, 0⟩, none⟩] (Except.error "boom") rfl
  exact ⟨h.1, h.2.2.1⟩

/-- C8: deleting an id that is in no bookmark row succeeds with a plain
200 response and leaves the whole store — every row of every table —
unchanged. -/
theorem delete_missing_id_noop (token : String) (st : Store) (idv now : Nat)
    (h : ∀ r ∈ st.bookmarks, r.id ≠ idv) :
    serve token (some token) (Req.remove idv) st now = (st, ⟨200, none, RespBody.empty⟩) := by
  have hf : st.bookmarks.filter (fun r => !(r.id == idv)) = st.bookmarks := by
    rw [List.filter_eq_self]
    intro r hr
    simp [h r hr]
  simp [serve, handleRoute, deleteBookmark, hf]

/-- Witness for C8: deleting id 2 from a store whose only bookmark has
id 1 changes nothing. -/
theorem delete_missing_id_noop_witness :
    serve "t" (some "t") (Req.remove 2) ⟨[⟨1, "a", "h", false, 0, 0⟩], [], []⟩ 5 =
      (⟨[⟨1, "a", "h", false, 0, 0⟩], [], []⟩, ⟨200, none, RespBody.empty⟩) :=
  delete_missing_id_noop "t" ⟨[⟨1, "a", "h", false, 0, 0⟩], [], []⟩ 2 5 (by decide)

/-- C3: toggling `finished` on an existing id stores that row with
`finished` set to the requested boolean and `updatedAt` bumped to the
(later) current time, keeping its id, name, href and createdAt; every row
with a different id is still present unchanged, the table keeps its
length, and the tag and association tables are untouched. -/
theorem toggle_finished_spec (token : String) (st : Store) (r : Bookmark)
    (idv : Nat) (b : Bool) (now : Nat)
    (hr : r ∈ st.bookmarks) (hid : r.id = idv) (hnow : r.updatedAt < now) :
    ({ r with finished := b, updatedAt := now } : Bookmark) ∈
      ((serve token (some token) (Req.toggle idv b) st now).1).bookmarks ∧
    r.updatedAt < ({ r with finished := b, updatedAt := now } : Bookmark).updatedAt ∧
    (∀ r2 ∈ st.bookmarks, r2.id ≠ idv →
      r2 ∈ ((serve token (some token) (Req.toggle idv b) st now).1).bookmarks) ∧
    ((serve token (some token) (Req.toggle idv b) st now).1).bookmarks.length =
      st.bookmarks.length ∧
    ((serve token (some token) (Req.toggle idv b) st now).1).tags = st.tags ∧
    ((serve token (some token) (Req.toggle idv b) st now).1).bookmarkTags = st.bookmarkTags := by
  have hserve : (serve token (some token) (Req.toggle idv b) st now).1 =
      { st with bookmarks := toggleFinished st.bookmarks idv b now } := by
    simp [serve, handleRoute]
  rw [hserve]
  refine ⟨?_, hnow, ?_, ?_, rfl, rfl⟩
  · have hmem := List.mem_map_of_mem
      (fun r => if r.id == idv then { r with finished := b, updatedAt := now } else r) hr
    simpa [toggleFinished, hid] using hmem
  · intro r2 hr2 hne
    have hmem := List.mem_map_of_mem
      (fun r => if r.id == idv then { r with finished := b, updatedAt := now } else r) hr2
    simpa [toggleFinished, hne] using hmem
  · simp [toggleFinished]

/-- Witness for C3: toggling id 1 to true at time 5 in a one-row store. -/
theorem toggle_finished_spec_witness :
    (⟨1, "a", "h", true, 0, 5⟩ : Bookmark) ∈
      ((serve "t" (some "t") (Req.toggle 1 true)
          ⟨[⟨1, "a", "h", false, 0, 0⟩], [], []⟩ 5).1).bookmarks :=
  (toggle_finished_spec "t" ⟨[⟨1, "a", "h", false, 0, 0⟩], [], []⟩
    ⟨1, "a", "h", false, 0, 0⟩ 1 true 5 (by decide) rfl (by decide)).1

/-- The update branch of the upsert preserves the count of rows carrying
the upserted name. -/
lemma countP_map_upsert (db : List Bookmark) (n h : String) (now : Nat) :
    ((db.map (fun r => if r.name == n then { r with name := n, href := h, updatedAt := now }
        else r)).countP (fun r => r.name == n)) =
      db.countP (fun r => r.name == n) := by
  rw [List.countP_map]
  apply List.countP_congr
  intro r _
  by_cases hr : r.name = n
  · simp [Function.comp, hr]
  · simp [Function.comp, hr]

/-- Behaviour of the upsert transaction when some row already carries the
name: it reports created=false, keeps the table length and the count of
rows with that name, and leaves every row that carries the name with the
new href. -/
lemma upsert_on_present (db : List Bookmark) (n h : String) (now : Nat)
    (hx : ∃ r ∈ db, r.name = n) :
    (upsertByName db n h now).2 = false ∧
    (upsertByName db n h now).1.countP (fun r => r.name == n) =
      db.countP (fun r => r.name == n) ∧
    (∀ r ∈ (upsertByName db n h now).1, r.name = n → r.href = h) ∧
    (upsertByName db n h now).1.length = db.length := by
  obtain ⟨r0, hr0, hrn⟩ := hx
  have hfind : db.find? (fun r => r.name == n) ≠ none := by
    rw [Ne, List.find?_eq_none]
    push_neg
    exact ⟨r0, hr0, by simp [hrn]⟩
  cases hf : db.find? (fun r => r.name == n) with
  | none => exact absurd hf hfind
  | some rr =>
    refine ⟨by simp [upsertByName, hf], ?_, ?_, by simp [upsertByName, hf]⟩
    · simp only [upsertByName, hf]
      exact countP_map_upsert db n h now
    · intro r hrmem hrname
      simp only [upsertByName, hf] at hrmem
      obtain ⟨r1, _, rfl⟩ := List.mem_map.mp hrmem
      by_cases h1 : r1.name = n
      · simp [h1]
      · have hbe : (r1.name == n) = false := by simp [h1]
        simp only [hbe, Bool.false_eq_true, if_false] at hrname
        exact absurd hrname h1

/-- Behaviour of the upsert transaction when no row carries the name: it
inserts one fresh row with that name and href, reporting created=true. -/
lemma upsert_on_absent (db : List Bookmark) (n h : String) (now : Nat)
    (hx : ∀ r ∈ db, r.name ≠ n) :
    (upsertByName db n h now).2 = true ∧
    (upsertByName db n h now).1.countP (fun r => r.name == n) = 1 ∧
    (∀ r ∈ (upsertByName db n h now).1, r.name = n → r.href = h) ∧
    (upsertByName db n h now).1.length = db.length + 1 := by
  have hfind : db.find? (fun r => r.name == n) = none := by
    rw [List.find?_eq_none]
    intro r hr
    simp [hx r hr]
  have hc0 : db.countP (fun r => r.name == n) = 0 := by
    rw [List.countP_eq_zero]
    intro r hr
    simp [hx r hr]
  refine ⟨by simp [upsertByName, hfind], ?_, ?_,
    by simp [upsertByName, hfind, insertBookmark]⟩
  · simp [upsertByName, hfind, insertBookmark, List.countP_append, hc0, List.countP_cons]
  · intro r hrmem hrname
    simp only [upsertByName, hfind, insertBookmark] at hrmem
    rw [List.mem_append] at hrmem
    rcases hrmem with hrm | hrm
    · exact absurd hrname (hx r hrm)
    · simp only [List.mem_singleton] at hrm
      subst hrm
      rfl

/-- A table whose count of rows named n is one has a row named n. -/
lemma exists_of_countP_one (n : String) (l : List Bookmark)
    (hl : l.countP (fun r => r.name == n) = 1) : ∃ r ∈ l, r.name = n := by
  have hpos : 0 < l.countP (fun r => r.name == n) := by omega
  obtain ⟨a, ha, hpa⟩ := List.countP_pos_iff.mp hpos
  exact ⟨a, ha, by simpa using hpa⟩

/-- Reduction of an authenticated upsert request through the guard to the
upsert transaction. -/
lemma serve_upsert_eq (token nm hh : String) (tt : Nat) (stx : Store) :
    serve token (some token) (Req.upsert nm hh) stx tt =
      ({ stx with bookmarks := (upsertByName stx.bookmarks nm hh tt).1 },
        ⟨200, none, RespBody.created (upsertByName stx.bookmarks nm hh tt).2⟩) := by
  simp [serve, handleRoute]

/-- C1: for the PUT /bookmarks upsert, when a row with the name exists the
call answers created=false; when none exists it inserts one row and
answers created=true; and, starting from a table with at most one row of
that name, two calls with the same name and different hrefs leave exactly
one row for that name, holding the second href, the second call answering
created=false. -/
theorem upsert_by_name_spec (token : String) (st : Store) (n h1 h2 : String) (t1 t2 : Nat)
    (hcount : st.bookmarks.countP (fun r => r.name == n) ≤ 1) :
    ((∃ r ∈ st.bookmarks, r.name = n) →
      (serve token (some token) (Req.upsert n h1) st t1).2.body = RespBody.created false ∧
      ((serve token (some token) (Req.upsert n h1) st t1).1).bookmarks.length =
        st.bookmarks.length) ∧
    ((∀ r ∈ st.bookmarks, r.name ≠ n) →
      (serve token (some token) (Req.upsert n h1) st t1).2.body = RespBody.created true ∧
      ((serve token (some token) (Req.upsert n h1) st t1).1).bookmarks.length =
        st.bookmarks.length + 1) ∧
    (serve token (some token) (Req.upsert n h2)
        ((serve token (some token) (Req.upsert n h1) st t1).1) t2).2.body =
      RespBody.created false ∧
    ((serve token (some token) (Req.upsert n h2)
        ((serve token (some token) (Req.upsert n h1) st t1).1) t2).1).bookmarks.countP
      (fun r => r.name == n) = 1 ∧
    (∀ r ∈ ((serve token (some token) (Req.upsert n h2)
        ((serve token (some token) (Req.upsert n h1) st t1).1) t2).1).bookmarks,
      r.name = n → r.href = h2) := by
  simp only [serve_upsert_eq]
  by_cases hx : ∃ r ∈ st.bookmarks, r.name = n
  · have hpres := upsert_on_present st.bookmarks n h1 t1 hx
    have hc1 : st.bookmarks.countP (fun r => r.name == n) = 1 := by
      obtain ⟨r0, hr0, hrn⟩ := hx
      have hpos : 0 < st.bookmarks.countP (fun r => r.name == n) :=
        List.countP_pos_iff.mpr ⟨r0, hr0, by simp [hrn]⟩
      omega
    have hcdb1 : (upsertByName st.bookmarks n h1 t1).1.countP (fun r => r.name == n) = 1 := by
      rw [hpres.2.1, hc1]
    have hx1 := exists_of_countP_one n _ hcdb1
    have hpres2 := upsert_on_present (upsertByName st.bookmarks n h1 t1).1 n h2 t2 hx1
    refine ⟨fun _ => ⟨by simp [hpres.1], hpres.2.2.2⟩, ?_, by simp [hpres2.1], ?_, ?_⟩
    · intro hall
      obtain ⟨r0, hr0, hrn⟩ := hx
      exact absurd hrn (hall r0 hr0)
    · rw [hpres2.2.1, hcdb1]
    · exact hpres2.2.2.1
  · push_neg at hx
    have habs := upsert_on_absent st.bookmarks n h1 t1 hx
    have hx1 := exists_of_countP_one n _ habs.2.1
    have hpres2 := upsert_on_present (upsertByName st.bookmarks n h1 t1).1 n h2 t2 hx1
    refine ⟨?_, fun _ => ⟨by simp [habs.1], habs.2.2.2⟩, by simp [hpres2.1], ?_, ?_⟩
    · intro hx2
      obtain ⟨r0, hr0, hrn⟩ := hx2
      exact absurd hrn (hx r0 hr0)
    · rw [hpres2.2.1, habs.2.1]
    · exact hpres2.2.2.1

/-- Witness for C1: two upserts of name a with hrefs h1 then h2 over the
empty store. -/
theorem upsert_by_name_spec_witness :
    (serve "t" (some "t") (Req.upsert "a" "h2")
        ((serve "t" (some "t") (Req.upsert "a" "h1") ⟨[], [], []⟩ 1).1) 2).2.body =
      RespBody.created false ∧
    ((serve "t" (some "t") (Req.upsert "a" "h2")
        ((serve "t" (some "t") (Req.upsert "a" "h1") ⟨[], [], []⟩ 1).1) 2).1).bookmarks.countP
      (fun r => r.name == "a") = 1 ∧
    (∀ r ∈ ((serve "t" (some "t") (Req.upsert "a" "h2")
        ((serve "t" (some "t") (Req.upsert "a" "h1") ⟨[], [], []⟩ 1).1) 2).1).bookmarks,
      r.name = "a" → r.href = "h2") := by
  have h := upsert_by_name_spec "t" ⟨[], [], []⟩ "a" "h1" "h2" 1 2 (by decide)
  exact ⟨h.2.2.1, h.2.2.2.1, h.2.2.2.2⟩

/-- A string of length zero is the empty string. -/
lemma string_length_zero {s : String} (h : s.length = 0) : s = "" := by
  cases s with
  | mk data =>
    simp only [String.length] at h
    rw [List.length_eq_zero] at h
    subst h
    rfl

/-- C7: creating a bookmark adds exactly one row, carrying the posted
name and href, finished=false and createdAt=updatedAt=now, and a
subsequent unfiltered list response contains exactly one entry with that
name and href, which is unfinished with equal timestamps — provided no
existing row already carried that name and href. -/
theorem create_then_list_spec (token : String) (st : Store) (n h : String) (now now2 : Nat)
    (hfresh : ∀ r ∈ st.bookmarks, ¬(r.name = n ∧ r.href = h)) :
    ((serve token (some token) (Req.create n h) st now).1).bookmarks.length =
      st.bookmarks.length + 1 ∧
    (⟨nextId st.bookmarks, n, h, false, now, now⟩ : Bookmark) ∈
      ((serve token (some token) (Req.create n h) st now).1).bookmarks ∧
    (∃ l, (serve token (some token) Req.list
        ((serve token (some token) (Req.create n h) st now).1) now2).2.body =
          RespBody.rows l ∧
      l.countP (fun r => r.name == n && r.href == h) = 1 ∧
      ∀ r ∈ l, r.name = n → r.href = h → r.finished = false ∧ r.createdAt = r.updatedAt) := by
  have hs1 : (serve token (some token) (Req.create n h) st now).1 =
      { st with bookmarks := insertBookmark st.bookmarks n h now } := by
    simp [serve, handleRoute]
  have hc0 : st.bookmarks.countP (fun r => r.name == n && r.href == h) = 0 := by
    rw [List.countP_eq_zero]
    intro r hr
    simpa using hfresh r hr
  have hperm := List.perm_insertionSort (fun a b : Bookmark => b.id ≤ a.id)
    (insertBookmark st.bookmarks n h now)
  simp only [hs1]
  refine ⟨by simp [insertBookmark], by simp [insertBookmark], ?_⟩
  refine ⟨(insertBookmark st.bookmarks n h now).insertionSort (fun a b => b.id ≤ a.id),
    by simp [serve, handleRoute], ?_, ?_⟩
  · rw [hperm.countP_eq]
    simp [insertBookmark, List.countP_append, List.countP_cons, hc0]
  · intro r hrl hrn hrh
    have hrmem : r ∈ insertBookmark st.bookmarks n h now := hperm.mem_iff.mp hrl
    simp only [insertBookmark, List.mem_append, List.mem_singleton] at hrmem
    rcases hrmem with hrm | hrm
    · exact absurd ⟨hrn, hrh⟩ (hfresh r hrm)
    · subst hrm
      exact ⟨rfl, rfl⟩

/-- Witness for C7: creating name a, href h in the empty store at time 3
and listing at time 9. -/
theorem create_then_list_spec_witness :
    ((serve "t" (some "t") (Req.create "a" "h") ⟨[], [], []⟩ 3).1).bookmarks.length =
      ([] : List Bookmark).length + 1 ∧
    (⟨nextId [], "a", "h", false, 3, 3⟩ : Bookmark) ∈
      ((serve "t" (some "t") (Req.create "a" "h") ⟨[], [], []⟩ 3).1).bookmarks ∧
    (∃ l, (serve "t" (some "t") Req.list
        ((serve "t" (some "t") (Req.create "a" "h") ⟨[], [], []⟩ 3).1) 9).2.body =
          RespBody.rows l ∧
      l.countP (fun r => r.name == "a" && r.href == "h") = 1 ∧
      ∀ r ∈ l, r.name = "a" → r.href = "h" → r.finished = false ∧ r.createdAt = r.updatedAt) :=
  create_then_list_spec "t" ⟨[], [], []⟩ "a" "h" 3 9 (by simp)

/-- C4 counterexample: for the bookmark named a-space-b, the query
consisting of one space is whitespace-only and a substring of the name;
the claim then requires the variant-B result to be the full unfiltered
list (and, being a substring, to include the bookmark), and the cached
variant's result to be empty — but variant B returns the empty list and
the cached variant returns the non-empty live LIKE result. -/
theorem search_query_claim_counterexample :
    likeContains "a b" " " = true ∧
    handlerB [⟨1, "a b", "h", false, 0, 0⟩] (some " ") = [] ∧
    handlerB [⟨1, "a b", "h", false, 0, 0⟩] (some " ") ≠ [⟨1, "a b", "h", false, 0, 0⟩] ∧
    handlerCached [] ⟨[⟨1, "a b", "h", false, 0, 0⟩], [], []⟩ (some " ") =
      [⟨⟨1, "a b", "h", false, 0, 0⟩, none⟩] := by
  decide

/-- C4 amended: a `q` whose trim is non-empty and which (trimmed) is a
substring of an existing bookmark's name returns that bookmark in variant
B, and an untrimmed non-empty substring `q` returns it (without tags) in
the cached variant; an empty or absent `q` yields the full unfiltered
list in variant B and the cached items in the cached variant; a
whitespace-only non-empty `q` yields the empty list in variant B, while
the cached variant runs the live LIKE search on the raw string. -/
theorem search_query_amended (db : List Bookmark) (st : Store)
    (cache : List BookmarkResp) (q : String) (r : Bookmark) :
    (handlerB db none = db) ∧
    (handlerB db (some "") = db) ∧
    (q ≠ "" → jsTrim q = "" → handlerB db (some q) = []) ∧
    (jsTrim q ≠ "" → r ∈ db → likeContains r.name (jsTrim q) = true →
      r ∈ handlerB db (some q)) ∧
    (handlerCached cache st none = cache) ∧
    (handlerCached cache st (some "") = cache) ∧
    (q ≠ "" → r ∈ st.bookmarks → likeContains r.name q = true →
      (⟨r, none⟩ : BookmarkResp) ∈ handlerCached cache st (some q)) := by
  refine ⟨rfl, by simp [handlerB], ?_, ?_, rfl, by simp [handlerCached], ?_⟩
  · intro hq htrim
    simp [handlerB, hq, htrim]
  · intro htrim hr hlike
    have hq : q ≠ "" := by
      intro hq
      subst hq
      exact htrim (by decide)
    have hlen : ¬((jsTrim q).length = 0) := fun h0 => htrim (string_length_zero h0)
    simp only [handlerB, if_neg hq, if_neg hlen]
    exact List.mem_filter.mpr ⟨hr, hlike⟩
  · intro hq hr hlike
    simp only [handlerCached, if_neg hq]
    exact List.mem_map_of_mem _ (List.mem_filter.mpr ⟨hr, hlike⟩)

/-- Witness for C4's amended statement: the query ell finds the bookmark
named hello in both variants, and a one-space query returns the empty
list in variant B. -/
theorem search_query_amended_witness :
    (⟨7, "hello", "h", false, 0, 0⟩ : Bookmark) ∈
      handlerB [⟨7, "hello", "h", false, 0, 0⟩] (some "ell") ∧
    (⟨⟨7, "hello", "h", false, 0, 0⟩, none⟩ : BookmarkResp) ∈
      handlerCached [] ⟨[⟨7, "hello", "h", false, 0, 0⟩], [], []⟩ (some "ell") ∧
    handlerB [⟨7, "hello", "h", false, 0, 0⟩] (some " ") = [] := by
  refine ⟨?_, ?_, ?_⟩
  · exact (search_query_amended [⟨7, "hello", "h", false, 0, 0⟩] ⟨[], [], []⟩ [] "ell"
      ⟨7, "hello", "h", false, 0, 0⟩).2.2.2.1 (by decide) (by decide) (by decide)
  · exact (search_query_amended [] ⟨[⟨7, "hello", "h", false, 0, 0⟩], [], []⟩ [] "ell"
      ⟨7, "hello", "h", false, 0, 0⟩).2.2.2.2.2.2 (by decide) (by decide) (by decide)
  · exact (search_query_amended [⟨7, "hello", "h", false, 0, 0⟩] ⟨[], [], []⟩ [] " "
      ⟨7, "hello", "h", false, 0, 0⟩).2.2.1 (by decide) (by decide)

/-- C9: in the cached variant, a non-empty `q` is served by a live select
on the bookmark table alone, so every element of its result has no tags
key, and any stored bookmark whose name contains `q` appears there bare;
the unfiltered path serves the cached entries, each of which carries the
tags array the refresh attached, so the same stored row appears there
enriched with its tags. -/
theorem cached_vs_search_shape (st : Store) (cache : List BookmarkResp) (q : String)
    (r : Bookmark) (e : BookmarkResp) (hq : q ≠ "") :
    (r ∈ st.bookmarks → likeContains r.name q = true →
      (⟨r, none⟩ : BookmarkResp) ∈ handlerCached cache st (some q)) ∧
    (e ∈ handlerCached cache st (some q) → e.tags = none) ∧
    (e ∈ handlerCached (getBookmarksQuery st) st none →
      e.tags = some (tagsFor st e.row.id)) ∧
    (r ∈ st.bookmarks →
      (⟨r, some (tagsFor st r.id)⟩ : BookmarkResp) ∈
        handlerCached (getBookmarksQuery st) st none) := by
  refine ⟨?_, ?_, ?_, ?_⟩
  · intro hr hlike
    simp only [handlerCached, if_neg hq]
    exact List.mem_map_of_mem _ (List.mem_filter.mpr ⟨hr, hlike⟩)
  · intro he
    simp only [handlerCached, if_neg hq] at he
    obtain ⟨b, _, rfl⟩ := List.mem_map.mp he
    rfl
  · intro he
    simp only [handlerCached, getBookmarksQuery] at he
    obtain ⟨b, _, rfl⟩ := List.mem_map.mp he
    rfl
  · intro hr
    simp only [handlerCached, getBookmarksQuery]
    exact List.mem_map_of_mem _ hr

/-- Witness for C9 on a one-bookmark, one-tag store and the query a. -/
theorem cached_vs_search_shape_witness :
    (⟨⟨1, "ab", "h", false, 0, 0⟩, none⟩ : BookmarkResp) ∈
      handlerCached [] ⟨[⟨1, "ab", "h", false, 0, 0⟩], [⟨7, "t", "default", 0, 0⟩],
        [⟨1, 7, 0⟩]⟩ (some "a") ∧
    (⟨⟨1, "ab", "h", false, 0, 0⟩,
        some (tagsFor ⟨[⟨1, "ab", "h", false, 0, 0⟩], [⟨7, "t", "default", 0, 0⟩],
          [⟨1, 7, 0⟩]⟩ 1)⟩ : BookmarkResp) ∈
      handlerCached (getBookmarksQuery ⟨[⟨1, "ab", "h", false, 0, 0⟩],
          [⟨7, "t", "default", 0, 0⟩], [⟨1, 7, 0⟩]⟩)
        ⟨[⟨1, "ab", "h", false, 0, 0⟩], [⟨7, "t", "default", 0, 0⟩], [⟨1, 7, 0⟩]⟩ none := by
  refine ⟨?_, ?_⟩
  · exact (cached_vs_search_shape ⟨[⟨1, "ab", "h", false, 0, 0⟩], [⟨7, "t", "default", 0, 0⟩],
      [⟨1, 7, 0⟩]⟩ [] "a" ⟨1, "ab", "h", false, 0, 0⟩ ⟨⟨1, "ab", "h", false, 0, 0⟩, none⟩
      (by decide)).1 (by decide) (by decide)
  · exact (cached_vs_search_shape ⟨[⟨1, "ab", "h", false, 0, 0⟩], [⟨7, "t", "default", 0, 0⟩],
      [⟨1, 7, 0⟩]⟩ [] "a" ⟨1, "ab", "h", false, 0, 0⟩ ⟨⟨1, "ab", "h", false, 0, 0⟩, none⟩
      (by decide)).2.2.2 (by decide)

/-- C10: the bookmark table has no uniqueness constraint on name: two
plain inserts of the same name yield two rows with that name; and
whenever some row carries the upserted name, the update branch rewrites
every row carrying that name (each such row reappears with the new href),
reporting created=false. -/
theorem duplicate_names_upsert_all :
    ((insertBookmark (insertBookmark [] "a" "h1" 1) "a" "h2" 2).countP
      (fun r => r.name == "a") = 2) ∧
    (∀ (db : List Bookmark) (n h : String) (now : Nat) (r : Bookmark),
      r ∈ db → r.name = n →
      (upsertByName db n h now).2 = false ∧
      ({ r with name := n, href := h, updatedAt := now } : Bookmark) ∈
        (upsertByName db n h now).1) := by
  refine ⟨by decide, ?_⟩
  intro db n h now r hr hrn
  have hpres := upsert_on_present db n h now ⟨r, hr, hrn⟩
  refine ⟨hpres.1, ?_⟩
  have hfind : db.find? (fun r => r.name == n) ≠ none := by
    rw [Ne, List.find?_eq_none]
    push_neg
    exact ⟨r, hr, by simp [hrn]⟩
  cases hf : db.find? (fun r => r.name == n) with
  | none => exact absurd hf hfind
  | some rr =>
    simp only [upsertByName, hf]
    have hmem := List.mem_map_of_mem
      (fun r => if r.name == n then { r with name := n, href := h, updatedAt := now } else r) hr
    simpa [hrn] using hmem

/-- Witness for C10 part two: upserting name a over a table holding two
rows named a rewrites both rows. -/
theorem duplicate_names_upsert_all_witness :
    (upsertByName [⟨1, "a", "h1", false, 0, 0⟩, ⟨2, "a", "h2", false, 0, 0⟩]
      "a" "h3" 9).2 = false ∧
    (⟨1, "a", "h3", false, 0, 9⟩ : Bookmark) ∈
      (upsertByName [⟨1, "a", "h1", false, 0, 0⟩, ⟨2, "a", "h2", false, 0, 0⟩]
        "a" "h3" 9).1 ∧
    (⟨2, "a", "h3", false, 0, 9⟩ : Bookmark) ∈
      (upsertByName [⟨1, "a", "h1", false, 0, 0⟩, ⟨2, "a", "h2", false, 0, 0⟩]
        "a" "h3" 9).1 := by
  have h1 := duplicate_names_upsert_all.2
    [⟨1, "a", "h1", false, 0, 0⟩, ⟨2, "a", "h2", false, 0, 0⟩] "a" "h3" 9
    ⟨1, "a", "h1", false, 0, 0⟩ (by decide) rfl
  have h2 := duplicate_names_upsert_all.2
    [⟨1, "a", "h1", false, 0, 0⟩, ⟨2, "a", "h2", false, 0, 0⟩] "a" "h3" 9
    ⟨2, "a", "h2", false, 0, 0⟩ (by decide) rfl
  exact ⟨h1.1, h1.2, h2.2⟩

end ProgressTracker
